import Mathlib

/-!
Verification of the request-multiplexing core of a D-Bus RNG client
(`sd-bus-client.c`).

The embedding models:
* `async_callback` — the completion handler for pipelined requests
  (source lines 26-89), as a pure function of the delivered outcome,
  the request context and the two global counters;
* the pipelined dispatch loop of `main` (source lines 276-361), as a
  state machine driven by an explicit environment: a per-request
  outcome oracle, a malloc/submission oracle, and a schedule saying
  what each `sd_bus_process` / `sd_bus_wait` call observes;
* the sequential path of `main` (source lines 201-275).

Output (`printf`/`fprintf`) is modelled structurally: each `Report`
constructor corresponds to one print statement of the source, carrying
the arguments that the source interpolates into the format string.
-/

deriving instance DecidableEq for Except

namespace SdBusClient

/-- `request_context_t` (source lines 14-19): per-request bookkeeping
handed to the async completion callback as userdata. -/
structure request_context_t where
  request_id : Nat
  expected_bytes : Nat
  log_to_stdout : Bool
  total_iterations : Nat
  deriving DecidableEq, Repr

/-- One emitted output line.  Each constructor corresponds to exactly one
`printf`/`fprintf` call of the source, carrying the interpolated values. -/
inductive Report where
  /-- line 31: "Failed to issue method call (request %d): %s" -/
  | methodCallFailed (request_id : Nat) (msg : String)
  /-- line 42: "Failed to parse reply message (request %d): %s" -/
  | parseReplyFailed (request_id : Nat) (errno : Nat)
  /-- line 50: "Method call returned error status (request %d): %d" -/
  | badStatus (request_id : Nat) (status : Nat)
  /-- line 62: "Failed to read array (request %d): %s" -/
  | readArrayFailed (request_id : Nat) (errno : Nat)
  /-- line 70: "Received %zu bytes, expected %u bytes (request %d)" -/
  | sizeMismatch (request_id : Nat) (received : Nat) (expected : Nat)
  /-- line 108: "Generated Octets (%zu bytes): %02X ..." (`print_octets` body) -/
  | generatedOctets (len : Nat) (octets : List Nat)
  /-- line 83: "Request %d: received %zu bytes" -/
  | receivedBytes (request_id : Nat) (len : Nat)
  /-- line 322: "Sent request %d/%d" -/
  | sentRequest (k : Nat) (total : Nat)
  /-- line 286: "Failed to allocate memory for request context" -/
  | allocFailed
  /-- line 312: "Failed to issue async method call (request %d): %s" -/
  | asyncCallFailed (request_id : Nat) (errno : Nat)
  /-- line 329: "Failed to process bus: %s" -/
  | processFailed (errno : Nat)
  /-- line 346: "Failed to wait on bus: %s" -/
  | waitFailed (errno : Nat)
  /-- line 211: "Iteration %d/%d: " (sequential mode header) -/
  | iterationHeader (i : Nat) (total : Nat)
  /-- line 230: "Failed to issue method call (iteration %d): %s" -/
  | seqCallFailed (iter : Nat) (msg : String)
  /-- line 239: "Failed to parse reply message: %s" -/
  | seqParseFailed (errno : Nat)
  /-- line 244: "Failed to issue method call (iteration %d): %s"; the
  source interpolates `error.message` here, which is unset on this path
  (the blocking call itself succeeded), so only the iteration is carried. -/
  | seqBadStatus (iter : Nat)
  /-- line 254: "Failed to read array (iteration %d): %s" -/
  | seqReadArrayFailed (iter : Nat) (errno : Nat)
  /-- line 260: "Received %zu bytes, expected %u bytes" -/
  | seqSizeMismatch (received : Nat) (expected : Nat)
  /-- line 269: "received %zu bytes" -/
  | seqReceivedBytes (len : Nat)
  /-- line 274: "Completed %d iterations successfully" -/
  | completedIterations (n : Nat)
  deriving DecidableEq, Repr

/-- The readable content of a reply message: the result of
`sd_bus_message_read(reply, "i", &status)` and of
`sd_bus_message_read_array(reply, 'y', &ptr, &octets_len)`.
A negative return `ret < 0` of either read is modelled as
`Except.error (-ret)`. -/
structure BusMessage where
  statusRead : Except Nat Nat
  arrayRead : Except Nat (List Nat)
  deriving DecidableEq, Repr

/-- What the channel delivers for one asynchronous request: either a
transport error (`ret_error` set, source line 30) or a reply message. -/
inductive Outcome where
  | transportError (msg : String)
  | reply (m : BusMessage)
  deriving DecidableEq, Repr

/-- Result of one `async_callback` invocation: the updated globals, the
lines printed, whether `free(ctx)` ran, and the C return value. -/
structure CallbackResult where
  completed_requests : Nat
  failed_requests : Nat
  reports : List Report
  ctxFreed : Bool
  ret : Int
  deriving DecidableEq, Repr

/-- `print_octets` (source lines 105-113): prints the payload in hex,
unless logging is disabled. -/
def print_octets (octets : List Nat) (len : Nat) (should_log : Bool) : List Report :=
  if !should_log then []
  else [Report.generatedOctets len octets]

/-- `async_callback` (source lines 26-89).  Takes the delivered outcome,
the request context, and the current values of the global counters
`completed_requests` / `failed_requests`; returns the new counter values,
printed lines, and the release of the context. -/
def async_callback (outcome : Outcome) (ctx : request_context_t)
    (completed_requests failed_requests : Nat) : CallbackResult :=
  match outcome with
  | Outcome.transportError msg =>
      ⟨completed_requests, failed_requests + 1,
        [Report.methodCallFailed ctx.request_id msg], true, 0⟩
  | Outcome.reply m =>
      match m.statusRead with
      | Except.error e =>
          ⟨completed_requests, failed_requests + 1,
            [Report.parseReplyFailed ctx.request_id e], true, 0⟩
      | Except.ok status =>
          if status ≠ 0 then
            ⟨completed_requests, failed_requests + 1,
              [Report.badStatus ctx.request_id status], true, 0⟩
          else
            match m.arrayRead with
            | Except.error e =>
                ⟨completed_requests, failed_requests + 1,
                  [Report.readArrayFailed ctx.request_id e], true, 0⟩
            | Except.ok octets =>
                if octets.length ≠ ctx.expected_bytes then
                  ⟨completed_requests, failed_requests + 1,
                    [Report.sizeMismatch ctx.request_id octets.length ctx.expected_bytes],
                    true, 0⟩
                else
                  ⟨completed_requests + 1, failed_requests,
                    (if ctx.total_iterations = 1 then
                       print_octets octets octets.length ctx.log_to_stdout
                     else if ctx.log_to_stdout then
                       [Report.receivedBytes ctx.request_id octets.length]
                     else []),
                    true, 0⟩

/-- Classification mirror of `async_callback`: `true` exactly on the
branch of the callback that increments `completed_requests`. -/
def callbackOk (outcome : Outcome) (expected : Nat) : Bool :=
  match outcome with
  | Outcome.transportError _ => false
  | Outcome.reply m =>
      match m.statusRead with
      | Except.error _ => false
      | Except.ok status =>
          if status ≠ 0 then false
          else
            match m.arrayRead with
            | Except.error _ => false
            | Except.ok octets => if octets.length ≠ expected then false else true

/-- `true` exactly on the two branches of `async_callback` that fail to
parse the reply (status field, source line 41, or payload array,
source line 61). -/
def callbackParseFail (outcome : Outcome) : Bool :=
  match outcome with
  | Outcome.transportError _ => false
  | Outcome.reply m =>
      match m.statusRead with
      | Except.error _ => true
      | Except.ok status =>
          if status ≠ 0 then false
          else
            match m.arrayRead with
            | Except.error _ => true
            | Except.ok _ => false

/-! ### The pipelined dispatch loop (source lines 276-361) -/

/-- The environment of one pipelined run: the CLI-derived inputs and the
oracles describing what the bus and the allocator do.
`outcomes id` is the outcome eventually delivered for request `id`
(1-based), `mallocOk id` whether the `malloc` for its context succeeds,
and `submit id` the return of `sd_bus_call_method_async`
(`Except.error e` standing for return `-e < 0`). -/
structure Params where
  iterations : Nat
  num_bytes : Nat
  concurrent : Nat
  log_to_stdout : Bool
  outcomes : Nat → Outcome
  mallocOk : Nat → Bool
  submit : Nat → Except Nat Unit

/-- Mutable state of the dispatch loop: the local variables
`requests_sent` / `in_flight` of `main`, the globals
`completed_requests` / `failed_requests`, the set of submitted but not
yet completed request ids (owned by the bus), and the output so far. -/
structure Config where
  requests_sent : Nat
  in_flight : Nat
  completed_requests : Nat
  failed_requests : Nat
  pending : List Nat
  reports : List Report
  deriving DecidableEq, Repr

/-- The initial state: counters reset (source lines 197-198, 278-279). -/
def initConfig : Config := ⟨0, 0, 0, 0, [], []⟩

/-- The context built for request `id` (source lines 291-294). -/
def mkCtx (P : Params) (id : Nat) : request_context_t :=
  ⟨id, P.num_bytes, P.log_to_stdout, P.iterations⟩

/-- What one `sd_bus_process` call observes.  `perror e` is a negative
return (line 328), `deliver i` means a message was processed and the
completion callback of the `i % pending.length`-th outstanding request
ran (return 1), `progress` a processed message that completed no request
(return 1), `idle` nothing to process (return 0). -/
inductive ProcResult where
  | perror (errno : Nat)
  | deliver (i : Nat)
  | progress
  | idle
  deriving DecidableEq, Repr

/-- `true` iff the entry completes some outstanding request. -/
def ProcResult.isDeliver : ProcResult → Bool
  | ProcResult.deliver _ => true
  | _ => false

/-- What one `sd_bus_wait` call observes. -/
inductive WaitResult where
  | ok
  | werror (errno : Nat)
  deriving DecidableEq, Repr

/-- The bus schedule: one entry per outer loop iteration, giving the
result of its `sd_bus_process` call and (if the loop reaches it) of its
`sd_bus_wait` call. -/
abbrev Sched := List (ProcResult × WaitResult)

/-- The admission phase (source lines 283-324): submit new requests while
`requests_sent < iterations && in_flight < concurrent`.  `fuel` is an
upper bound on the number of submissions still possible; the dispatch
loop calls it with `fuel = P.iterations`, which can never be exhausted
before the guard turns false, since every submission increments
`requests_sent`.  An `Except.error (e, c)` is the `goto cleanup` of a
malloc failure (line 285) or async-submission failure (line 311).  The
second component lists the state after every individual submission. -/
def admitLoop (P : Params) : Nat → Config → Except (Nat × Config) Config × List Config
  | 0, c => (Except.ok c, [])
  | fuel + 1, c =>
    if c.requests_sent < P.iterations ∧ c.in_flight < P.concurrent then
      if P.mallocOk (c.requests_sent + 1) = false then
        (Except.error (12, { c with reports := c.reports ++ [Report.allocFailed] }), [])
      else
        match P.submit (c.requests_sent + 1) with
        | Except.error e =>
            (Except.error
              (e, { c with reports :=
                      c.reports ++ [Report.asyncCallFailed (c.requests_sent + 1) e] }), [])
        | Except.ok _ =>
            let c' : Config :=
              { c with
                requests_sent := c.requests_sent + 1,
                in_flight := c.in_flight + 1,
                pending := c.pending ++ [c.requests_sent + 1],
                reports := c.reports ++
                  (if P.log_to_stdout ∧ 1 < P.iterations then
                     [Report.sentRequest (c.requests_sent + 1) P.iterations]
                   else []) }
            let r := admitLoop P fuel c'
            (r.1, c' :: r.2)
    else (Except.ok c, [])

/-- One `sd_bus_process` call (source lines 327-331).  On `deliver i` the
completion callback of the chosen outstanding request runs against the
current globals; the request leaves the pending set (its slot/context are
gone after the callback).  Returns the C return value and new state, or
the `goto cleanup` error. -/
def processStep (P : Params) (c : Config) : ProcResult → Except (Nat × Config) (Int × Config)
  | ProcResult.perror e =>
      Except.error (e, { c with reports := c.reports ++ [Report.processFailed e] })
  | ProcResult.idle => Except.ok (0, c)
  | ProcResult.progress => Except.ok (1, c)
  | ProcResult.deliver i =>
      match c.pending with
      | [] => Except.ok (1, c)
      | p :: ps =>
          let j := i % (p :: ps).length
          let id := (p :: ps).getD j 0
          let r := async_callback (P.outcomes id) (mkCtx P id)
                     c.completed_requests c.failed_requests
          Except.ok (1,
            { c with
              completed_requests := r.completed_requests,
              failed_requests := r.failed_requests,
              pending := (p :: ps).eraseIdx j,
              reports := c.reports ++ r.reports })

/-- Terminal state of the pipelined loop: normal exit (line 281 guard
false), `goto cleanup` with a negative return, or — a modelling artifact
with no source counterpart — the finite schedule ran out while the loop
was still running. -/
inductive RunResult where
  | finished (c : Config)
  | fatal (errno : Nat) (c : Config)
  | starved (c : Config)
  deriving DecidableEq, Repr

/-- Observation of one outer loop iteration that reached the
`sd_bus_process` call: the process return value, the recomputed
`in_flight` (line 335), and whether the iteration then blocked in
`sd_bus_wait` (line 344). -/
structure IterRecord where
  procRet : Int
  inFlightAfter : Nat
  waited : Bool
  deriving DecidableEq, Repr

/-- Full observation of a pipelined run. -/
structure RunOut where
  result : RunResult
  states : List Config
  records : List IterRecord
  deriving Repr

/-- The pipelined dispatch loop (source lines 281-350), one recursive
call per outer `while` iteration, consuming one schedule entry per
iteration.  `states` collects every state in which `in_flight` just
changed (after each submission and after each line-335 recomputation). -/
def runLoop (P : Params) : Sched → Config → RunOut
  | ss, c =>
    if c.requests_sent < P.iterations ∨ 0 < c.in_flight then
      match admitLoop P P.iterations c with
      | (Except.error ec, tr) => ⟨RunResult.fatal ec.1 ec.2, tr, []⟩
      | (Except.ok c1, tr) =>
        match ss with
        | [] => ⟨RunResult.starved c1, tr, []⟩
        | e :: ss' =>
          match processStep P c1 e.1 with
          | Except.error ec => ⟨RunResult.fatal ec.1 ec.2, tr, []⟩
          | Except.ok rc =>
            let c3 : Config :=
              { rc.2 with
                in_flight := rc.2.requests_sent -
                  (rc.2.completed_requests + rc.2.failed_requests) }
            if 0 < rc.1 then
              let o := runLoop P ss' c3
              ⟨o.result, tr ++ c3 :: o.states, ⟨rc.1, c3.in_flight, false⟩ :: o.records⟩
            else if 0 < c3.in_flight then
              match e.2 with
              | WaitResult.werror we =>
                  ⟨RunResult.fatal we
                     { c3 with reports := c3.reports ++ [Report.waitFailed we] },
                   tr ++ [c3], [⟨rc.1, c3.in_flight, true⟩]⟩
              | WaitResult.ok =>
                  let o := runLoop P ss' c3
                  ⟨o.result, tr ++ c3 :: o.states, ⟨rc.1, c3.in_flight, true⟩ :: o.records⟩
            else
              let o := runLoop P ss' c3
              ⟨o.result, tr ++ c3 :: o.states, ⟨rc.1, c3.in_flight, false⟩ :: o.records⟩
    else ⟨RunResult.finished c, [], []⟩

/-- Process exit status after the pipelined branch: `EXIT_FAILURE` (1)
when `ret < 0` at `cleanup` — any fatal error, or `failed_requests > 0`
(source lines 357-360, 369).  `starved` has no source counterpart; it is
mapped to 0 and never appears in any theorem below. -/
def exitCode : RunResult → Nat
  | RunResult.finished c => if 0 < c.failed_requests then 1 else 0
  | RunResult.fatal _ _ => 1
  | RunResult.starved _ => 0

/-! ### The sequential path (source lines 201-275) -/

/-- Result of one blocking `sd_bus_call_method` (source line 216): a
negative return with `error.message` set, or a reply message. -/
inductive SyncOutcome where
  | callError (msg : String)
  | ok (m : BusMessage)
  deriving DecidableEq, Repr

/-- Environment of a sequential run: CLI inputs plus the outcome of the
blocking call of each iteration (0-based). -/
structure SeqParams where
  iterations : Nat
  num_bytes : Nat
  log_to_stdout : Bool
  sync : Nat → SyncOutcome

/-- The body of one sequential iteration `i` (source lines 204-270).
`Except.error reps` is the `goto cleanup` of any failure, `Except.ok
reps` a fully validated iteration; `reps` are the lines printed. -/
def seqIteration (P : SeqParams) (i : Nat) : Except (List Report) (List Report) :=
  let hdr : List Report :=
    if P.log_to_stdout ∧ 1 < P.iterations then [Report.iterationHeader (i + 1) P.iterations]
    else []
  match P.sync i with
  | SyncOutcome.callError msg => Except.error (hdr ++ [Report.seqCallFailed (i + 1) msg])
  | SyncOutcome.ok m =>
    match m.statusRead with
    | Except.error e => Except.error (hdr ++ [Report.seqParseFailed e])
    | Except.ok status =>
      if status ≠ 0 then Except.error (hdr ++ [Report.seqBadStatus (i + 1)])
      else
        match m.arrayRead with
        | Except.error e => Except.error (hdr ++ [Report.seqReadArrayFailed (i + 1) e])
        | Except.ok octets =>
          if octets.length ≠ P.num_bytes then
            Except.error (hdr ++ [Report.seqSizeMismatch octets.length P.num_bytes])
          else
            Except.ok (hdr ++
              (if P.iterations = 1 then print_octets octets octets.length P.log_to_stdout
               else if P.log_to_stdout then [Report.seqReceivedBytes octets.length]
               else []))

/-- `true` iff iteration `i` of the sequential loop validates. -/
def seqIterOk (P : SeqParams) (i : Nat) : Bool :=
  match seqIteration P i with
  | Except.ok _ => true
  | Except.error _ => false

/-- Terminal state of the sequential loop: either every iteration ran
(`completed successes reports`, with `successes` the number of iterations
that validated, i.e. the loop counter at exit) or the run aborted at the
0-based iteration `failedIter` (`goto cleanup`). -/
inductive SeqResult where
  | completed (successes : Nat) (reports : List Report)
  | fatal (failedIter : Nat) (reports : List Report)
  deriving DecidableEq, Repr

/-- The sequential `for` loop (source lines 203-271): `remaining`
iterations still to run, `i` the current loop counter, `acc` output so
far. -/
def seqLoop (P : SeqParams) : Nat → Nat → List Report → SeqResult
  | 0, i, acc => SeqResult.completed i acc
  | remaining + 1, i, acc =>
    match seqIteration P i with
    | Except.error reps => SeqResult.fatal i (acc ++ reps)
    | Except.ok reps => seqLoop P remaining (i + 1) (acc ++ reps)

/-- The whole sequential branch of `main` (source lines 201-275),
including the success banner of line 274. -/
def seqMain (P : SeqParams) : SeqResult :=
  match seqLoop P P.iterations 0 [] with
  | SeqResult.completed i reps =>
      SeqResult.completed i
        (reps ++ (if P.log_to_stdout then [Report.completedIterations P.iterations] else []))
  | r => r

/-- The outcome the completion handler would have been given for a
blocking call, identifying the two error taxonomies (source lines
229-233 vs 30-36). -/
def outcomeOfSync : SyncOutcome → Outcome
  | SyncOutcome.callError msg => Outcome.transportError msg
  | SyncOutcome.ok m => Outcome.reply m

/-- The state invariant of the pipelined loop: the counters and the
pending set account exactly for every submitted request, the `in_flight`
variable agrees with the number of outstanding requests, the admission
window is within budget, and no more than `iterations` requests were
submitted. -/
def LoopInv (P : Params) (c : Config) : Prop :=
  c.completed_requests + c.failed_requests + c.pending.length = c.requests_sent ∧
  c.in_flight = c.pending.length ∧
  c.pending.length ≤ P.concurrent ∧
  c.requests_sent ≤ P.iterations

/-- Whether the outcome that the environment holds for request `id`
validates successfully in the completion handler. -/
def okP (P : Params) (id : Nat) : Bool := callbackOk (P.outcomes id) P.num_bytes

/-- The requests not yet finished in state `c`: the outstanding ones plus
the ids not yet submitted. -/
def remainingIds (P : Params) (c : Config) : List Nat :=
  c.pending ++ List.range' (c.requests_sent + 1) (P.iterations - c.requests_sent)

/-! ### Concrete fixtures used to evaluate the theorems on closed runs -/

/-- A well-formed reply carrying two payload bytes. -/
def goodMsg : BusMessage := ⟨Except.ok 0, Except.ok [7, 7]⟩

/-- A 2-request, 2-bytes, concurrency-2 environment where everything
succeeds. -/
def P1 : Params :=
  { iterations := 2, num_bytes := 2, concurrent := 2, log_to_stdout := true,
    outcomes := fun _ => Outcome.reply goodMsg,
    mallocOk := fun _ => true,
    submit := fun _ => Except.ok () }

/-- A schedule that completes one outstanding request per iteration. -/
def ss1 : Sched :=
  [(ProcResult.deliver 0, WaitResult.ok), (ProcResult.deliver 0, WaitResult.ok)]

/-- A schedule with an idle round in the middle. -/
def ss2 : Sched :=
  [(ProcResult.deliver 0, WaitResult.ok), (ProcResult.idle, WaitResult.ok),
   (ProcResult.deliver 0, WaitResult.ok)]

/-- A single-iteration all-success sequential environment. -/
def Q1 : SeqParams :=
  { iterations := 1, num_bytes := 2, log_to_stdout := true,
    sync := fun _ => SyncOutcome.ok goodMsg }

/-- An environment whose channel rejects the second async submission. -/
def P5 : Params :=
  { iterations := 3, num_bytes := 2, concurrent := 3, log_to_stdout := true,
    outcomes := fun _ => Outcome.reply goodMsg,
    mallocOk := fun _ => true,
    submit := fun id => if id = 2 then Except.error 11 else Except.ok () }

/-- An environment where request 1 delivers an unparsable reply and
request 2 succeeds. -/
def P10 : Params :=
  { iterations := 2, num_bytes := 2, concurrent := 2, log_to_stdout := true,
    outcomes := fun id =>
      if id = 1 then Outcome.reply ⟨Except.error 5, Except.ok []⟩
      else Outcome.reply goodMsg,
    mallocOk := fun _ => true,
    submit := fun _ => Except.ok () }

/-- A two-iteration sequential environment whose second blocking call
fails. -/
def Q6 : SeqParams :=
  { iterations := 2, num_bytes := 2, log_to_stdout := true,
    sync := fun i => if i = 0 then SyncOutcome.ok goodMsg
                     else SyncOutcome.callError "down" }

/-- A two-iteration all-success sequential environment matching `P1`. -/
def Q8 : SeqParams :=
  { iterations := 2, num_bytes := 2, log_to_stdout := true,
    sync := fun _ => SyncOutcome.ok goodMsg }

/-! ### Helper lemmas about the completion handler -/

lemma async_callback_counts (o : Outcome) (ctx : request_context_t) (cc ff : Nat) :
    (async_callback o ctx cc ff).completed_requests
        = (if callbackOk o ctx.expected_bytes then cc + 1 else cc) ∧
    (async_callback o ctx cc ff).failed_requests
        = (if callbackOk o ctx.expected_bytes then ff else ff + 1) ∧
    (async_callback o ctx cc ff).ctxFreed = true ∧
    (async_callback o ctx cc ff).ret = 0 := by
  rcases o with msg | ⟨sr, ar⟩
  · simp [async_callback, callbackOk]
  · rcases sr with e | status
    · simp [async_callback, callbackOk]
    · rcases ar with e | octets
      · by_cases h0 : status = 0 <;> simp [async_callback, callbackOk, h0]
      · by_cases h0 : status = 0 <;>
          by_cases hl : octets.length = ctx.expected_bytes <;>
            simp [async_callback, callbackOk, h0, hl]

/-- The lines printed by the callback do not depend on the counter values. -/
lemma async_callback_reports_eq (o : Outcome) (ctx : request_context_t) (cc ff : Nat) :
    (async_callback o ctx cc ff).reports = (async_callback o ctx 0 0).reports := by
  rcases o with msg | ⟨sr, ar⟩
  · simp [async_callback]
  · rcases sr with e | status
    · simp [async_callback]
    · rcases ar with e | octets
      · by_cases h0 : status = 0 <;> simp [async_callback, h0]
      · by_cases h0 : status = 0 <;>
          by_cases hl : octets.length = ctx.expected_bytes <;>
            simp [async_callback, h0, hl]

/-- A parse failure is never classified as a success. -/
lemma callbackParseFail_not_ok (o : Outcome) (expected : Nat)
    (h : callbackParseFail o = true) : callbackOk o expected = false := by
  rcases o with msg | ⟨sr, ar⟩
  · rfl
  · rcases sr with e | status
    · rfl
    · rcases ar with e | octets
      · by_cases h0 : status = 0 <;> simp [callbackOk, h0]
      · by_cases h0 : status = 0 <;> simp [callbackParseFail, h0] at h

/-! ### List helper lemmas -/

lemma getD_mem_of_lt {l : List Nat} : ∀ {j : Nat}, j < l.length → l.getD j 0 ∈ l := by
  induction l with
  | nil => intro j h; simp at h
  | cons a t ih =>
    intro j h
    cases j with
    | zero => simp
    | succ j =>
      simp only [List.getD_cons_succ, List.mem_cons]
      exact Or.inr (ih (by simpa using Nat.lt_of_succ_lt_succ h))

lemma countP_eraseIdx_getD (p : Nat → Bool) :
    ∀ (l : List Nat) (j : Nat), j < l.length →
      List.countP p (l.eraseIdx j) + (if p (l.getD j 0) then 1 else 0) = List.countP p l := by
  intro l
  induction l with
  | nil => intro j h; simp at h
  | cons a t ih =>
    intro j h
    cases j with
    | zero =>
      simp only [List.eraseIdx_cons_zero, List.getD_cons_zero, List.countP_cons]
    | succ j =>
      have hj : j < t.length := by simpa using Nat.lt_of_succ_lt_succ h
      have := ih j hj
      simp only [List.eraseIdx_cons_succ, List.getD_cons_succ, List.countP_cons]
      omega

lemma mem_eraseIdx_or_getD {x : Nat} :
    ∀ (l : List Nat) (j : Nat), j < l.length → x ∈ l →
      x ∈ l.eraseIdx j ∨ x = l.getD j 0 := by
  intro l
  induction l with
  | nil => intro j h; simp at h
  | cons a t ih =>
    intro j h hx
    cases j with
    | zero =>
      rcases List.mem_cons.mp hx with h1 | h1
      · exact Or.inr (by simpa using h1)
      · exact Or.inl (by simpa using h1)
    | succ j =>
      have hj : j < t.length := by simpa using Nat.lt_of_succ_lt_succ h
      rcases List.mem_cons.mp hx with h1 | h1
      · exact Or.inl (by simp [h1])
      · rcases ih j hj h1 with h2 | h2
        · exact Or.inl (by simp [h2])
        · exact Or.inr (by simpa using h2)

/-! ### Invariants of the dispatch loop -/

lemma admitLoop_spec (P : Params) (hm : ∀ id, P.mallocOk id = true)
    (hs : ∀ id, P.submit id = Except.ok ()) :
    ∀ (fuel : Nat) (c : Config), ∃ k c',
      (admitLoop P fuel c).1 = Except.ok c' ∧
      c'.requests_sent = c.requests_sent + k ∧
      c'.in_flight = c.in_flight + k ∧
      c'.completed_requests = c.completed_requests ∧
      c'.failed_requests = c.failed_requests ∧
      c'.pending = c.pending ++ List.range' (c.requests_sent + 1) k ∧
      (∀ rep ∈ c.reports, rep ∈ c'.reports) ∧
      (k = 0 ∨ (c.in_flight + k ≤ P.concurrent ∧ c.requests_sent + k ≤ P.iterations)) ∧
      (P.iterations ≤ c.requests_sent + fuel →
        P.iterations ≤ c'.requests_sent ∨ P.concurrent ≤ c'.in_flight) := by
  intro fuel
  induction fuel with
  | zero =>
    intro c
    exact ⟨0, c, rfl, rfl, rfl, rfl, rfl, by simp, fun rep h => h, Or.inl rfl,
      fun h => Or.inl (by omega)⟩
  | succ fuel ih =>
    intro c
    by_cases hg : c.requests_sent < P.iterations ∧ c.in_flight < P.concurrent
    · obtain ⟨k, c', h1, h2, h3, h4, h5, h6, h7, h8, h9⟩ := ih
        { c with
          requests_sent := c.requests_sent + 1,
          in_flight := c.in_flight + 1,
          pending := c.pending ++ [c.requests_sent + 1],
          reports := c.reports ++
            (if P.log_to_stdout ∧ 1 < P.iterations then
               [Report.sentRequest (c.requests_sent + 1) P.iterations]
             else []) }
      have hunfold : (admitLoop P (fuel + 1) c).1
          = (admitLoop P fuel
              { c with
                requests_sent := c.requests_sent + 1,
                in_flight := c.in_flight + 1,
                pending := c.pending ++ [c.requests_sent + 1],
                reports := c.reports ++
                  (if P.log_to_stdout ∧ 1 < P.iterations then
                     [Report.sentRequest (c.requests_sent + 1) P.iterations]
                   else []) }).1 := by
        simp only [admitLoop, hm (c.requests_sent + 1), hs (c.requests_sent + 1),
          if_pos hg]
        simp
      dsimp only at h1 h2 h3 h4 h5 h6 h7 h8 h9
      refine ⟨k + 1, c', by rw [hunfold]; exact h1, by omega, by omega, h4, h5, ?_, ?_, ?_, ?_⟩
      · rw [h6]
        simp only [List.range'_succ, List.append_assoc, List.singleton_append]
      · intro rep hrep
        exact h7 rep (List.mem_append_left _ hrep)
      · refine Or.inr ?_
        rcases h8 with h8 | h8
        · subst h8; constructor <;> omega
        · constructor <;> omega
      · intro hfuel
        exact h9 (by omega)
    · refine ⟨0, c, ?_, rfl, rfl, rfl, rfl, by simp, fun rep h => h, Or.inl rfl, ?_⟩
      · simp only [admitLoop, if_neg hg]
      · intro h
        rcases not_and_or.mp hg with h1 | h1
        · exact Or.inl (by omega)
        · exact Or.inr (by omega)

lemma admitLoop_error_spec (P : Params) :
    ∀ (fuel : Nat) (c : Config) (e : Nat) (cf : Config),
      (admitLoop P fuel c).1 = Except.error (e, cf) →
      c.requests_sent ≤ cf.requests_sent ∧
      cf.pending = c.pending ++
        List.range' (c.requests_sent + 1) (cf.requests_sent - c.requests_sent) ∧
      cf.in_flight = c.in_flight + (cf.requests_sent - c.requests_sent) ∧
      cf.completed_requests = c.completed_requests ∧
      cf.failed_requests = c.failed_requests ∧
      (P.mallocOk (cf.requests_sent + 1) = false ∨
        P.submit (cf.requests_sent + 1) = Except.error e) := by
  intro fuel
  induction fuel with
  | zero => intro c e cf h; exact absurd h (by simp [admitLoop])
  | succ fuel ih =>
    intro c e cf h
    by_cases hg : c.requests_sent < P.iterations ∧ c.in_flight < P.concurrent
    · by_cases hmv : P.mallocOk (c.requests_sent + 1) = false
      · simp only [admitLoop, if_pos hg, if_pos hmv] at h
        obtain ⟨he, hcf⟩ : 12 = e ∧
            ({ c with reports := c.reports ++ [Report.allocFailed] } : Config) = cf := by
          have := congrArg (fun x => x) h
          injection h with h'
          injection h' with h1 h2
          exact ⟨h1, h2⟩
        subst hcf
        refine ⟨le_refl _, by simp, by simp, rfl, rfl, Or.inl hmv⟩
      · have hmv' : P.mallocOk (c.requests_sent + 1) = true := by
          cases hval : P.mallocOk (c.requests_sent + 1)
          · exact absurd hval hmv
          · rfl
        cases hsv : P.submit (c.requests_sent + 1) with
        | error e0 =>
          simp only [admitLoop, if_pos hg, hmv', hsv] at h
          simp only [Bool.true_eq_false, if_false] at h
          obtain ⟨he, hcf⟩ : e0 = e ∧
              ({ c with reports := c.reports ++
                  [Report.asyncCallFailed (c.requests_sent + 1) e0] } : Config) = cf := by
            injection h with h'
            injection h' with h1 h2
            exact ⟨h1, h2⟩
          subst hcf he
          refine ⟨le_refl _, by simp, by simp, rfl, rfl, Or.inr hsv⟩
        | ok u =>
          have hstep : (admitLoop P (fuel + 1) c).1
              = (admitLoop P fuel
                  { c with
                    requests_sent := c.requests_sent + 1,
                    in_flight := c.in_flight + 1,
                    pending := c.pending ++ [c.requests_sent + 1],
                    reports := c.reports ++
                      (if P.log_to_stdout ∧ 1 < P.iterations then
                         [Report.sentRequest (c.requests_sent + 1) P.iterations]
                       else []) }).1 := by
            simp only [admitLoop, if_pos hg, hmv', hsv]
            simp
          rw [hstep] at h
          obtain ⟨g1, g2, g3, g4, g5, g6⟩ := ih _ e cf h
          simp only at g1 g2 g3 g4 g5
          refine ⟨by omega, ?_, by omega, g4, g5, g6⟩
          rw [g2]
          have hk : cf.requests_sent - c.requests_sent
              = (cf.requests_sent - (c.requests_sent + 1)) + 1 := by omega
          rw [hk, List.range'_succ]
          simp [List.append_assoc]
    · simp only [admitLoop, if_neg hg] at h
      exact absurd h (by simp)

lemma admitLoop_inv (P : Params) :
    ∀ (fuel : Nat) (c : Config), LoopInv P c →
      (∀ c'' ∈ (admitLoop P fuel c).2, LoopInv P c'') ∧
      (∀ c', (admitLoop P fuel c).1 = Except.ok c' → LoopInv P c') ∧
      (∀ e c', (admitLoop P fuel c).1 = Except.error (e, c') → LoopInv P c') := by
  intro fuel
  induction fuel with
  | zero =>
    intro c hInv
    refine ⟨by simp [admitLoop], ?_, ?_⟩
    · intro c' h
      obtain rfl : c = c' := by injection h
      exact hInv
    · intro e c' h; exact absurd h (by simp [admitLoop])
  | succ fuel ih =>
    intro c hInv
    by_cases hg : c.requests_sent < P.iterations ∧ c.in_flight < P.concurrent
    · by_cases hmv : P.mallocOk (c.requests_sent + 1) = false
      · refine ⟨?_, ?_, ?_⟩
        · simp [admitLoop, if_pos hg, hmv]
        · intro c' h
          simp only [admitLoop, if_pos hg, if_pos hmv] at h
          exact absurd h (by simp)
        · intro e c' h
          simp only [admitLoop, if_pos hg, if_pos hmv] at h
          obtain ⟨he, hcf⟩ : 12 = e ∧
              ({ c with reports := c.reports ++ [Report.allocFailed] } : Config) = c' := by
            injection h with h'
            injection h' with h1 h2
            exact ⟨h1, h2⟩
          subst hcf
          exact hInv
      · have hmv' : P.mallocOk (c.requests_sent + 1) = true := by
          cases hval : P.mallocOk (c.requests_sent + 1)
          · exact absurd hval hmv
          · rfl
        cases hsv : P.submit (c.requests_sent + 1) with
        | error e0 =>
          refine ⟨?_, ?_, ?_⟩
          · simp [admitLoop, if_pos hg, hmv', hsv]
          · intro c' h
            simp only [admitLoop, if_pos hg, hmv', hsv] at h
            simp only [Bool.true_eq_false, if_false] at h
            exact absurd h (by simp)
          · intro e c' h
            simp only [admitLoop, if_pos hg, hmv', hsv] at h
            simp only [Bool.true_eq_false, if_false] at h
            obtain ⟨he, hcf⟩ : e0 = e ∧
                ({ c with reports := c.reports ++
                    [Report.asyncCallFailed (c.requests_sent + 1) e0] } : Config) = c' := by
              injection h with h'
              injection h' with h1 h2
              exact ⟨h1, h2⟩
            subst hcf
            exact hInv
        | ok u =>
          obtain ⟨hInv1, hInv2, hInv3, hInv4⟩ := hInv
          have hInvNext : LoopInv P
              { c with
                requests_sent := c.requests_sent + 1,
                in_flight := c.in_flight + 1,
                pending := c.pending ++ [c.requests_sent + 1],
                reports := c.reports ++
                  (if P.log_to_stdout ∧ 1 < P.iterations then
                     [Report.sentRequest (c.requests_sent + 1) P.iterations]
                   else []) } := by
            refine ⟨by simp; omega, by simp; omega, by simp; omega, by simp; omega⟩
          obtain ⟨g1, g2, g3⟩ := ih _ hInvNext
          have hstep1 : (admitLoop P (fuel + 1) c).1
              = (admitLoop P fuel
                  { c with
                    requests_sent := c.requests_sent + 1,
                    in_flight := c.in_flight + 1,
                    pending := c.pending ++ [c.requests_sent + 1],
                    reports := c.reports ++
                      (if P.log_to_stdout ∧ 1 < P.iterations then
                         [Report.sentRequest (c.requests_sent + 1) P.iterations]
                       else []) }).1 := by
            simp only [admitLoop, if_pos hg, hmv', hsv]
            simp
          have hstep2 : (admitLoop P (fuel + 1) c).2
              = { c with
                    requests_sent := c.requests_sent + 1,
                    in_flight := c.in_flight + 1,
                    pending := c.pending ++ [c.requests_sent + 1],
                    reports := c.reports ++
                      (if P.log_to_stdout ∧ 1 < P.iterations then
                         [Report.sentRequest (c.requests_sent + 1) P.iterations]
                       else []) } ::
                (admitLoop P fuel
                  { c with
                    requests_sent := c.requests_sent + 1,
                    in_flight := c.in_flight + 1,
                    pending := c.pending ++ [c.requests_sent + 1],
                    reports := c.reports ++
                      (if P.log_to_stdout ∧ 1 < P.iterations then
                         [Report.sentRequest (c.requests_sent + 1) P.iterations]
                       else []) }).2 := by
            simp only [admitLoop, if_pos hg, hmv', hsv]
            simp
          refine ⟨?_, ?_, ?_⟩
          · intro c'' hmem
            rw [hstep2] at hmem
            rcases List.mem_cons.mp hmem with h | h
            · subst h; exact hInvNext
            · exact g1 _ h
          · intro c' h; rw [hstep1] at h; exact g2 _ h
          · intro e c' h; rw [hstep1] at h; exact g3 _ _ h
    · refine ⟨by simp [admitLoop, if_neg hg], ?_, ?_⟩
      · intro c' h
        simp only [admitLoop, if_neg hg] at h
        obtain rfl : c = c' := by injection h
        exact hInv
      · intro e c' h
        simp only [admitLoop, if_neg hg] at h
        exact absurd h (by simp)

lemma processStep_ok_spec (P : Params) (c : Config) (pr : ProcResult) :
    ∀ (r : Int) (c2 : Config), processStep P c pr = Except.ok (r, c2) →
      (r = 0 ∨ r = 1) ∧
      c2.requests_sent = c.requests_sent ∧
      c2.in_flight = c.in_flight ∧
      (∀ rep ∈ c.reports, rep ∈ c2.reports) ∧
      ((c2.completed_requests = c.completed_requests ∧
        c2.failed_requests = c.failed_requests ∧ c2.pending = c.pending) ∨
       (0 < c.pending.length ∧
        c2.completed_requests + c2.failed_requests
          = c.completed_requests + c.failed_requests + 1 ∧
        c2.pending.length + 1 = c.pending.length)) := by
  intro r c2 h
  cases pr with
  | perror e => exact absurd h (by simp [processStep])
  | idle =>
    obtain ⟨h1, h2⟩ : (0 : Int) = r ∧ c = c2 := by
      simp only [processStep] at h
      injection h with h'
      injection h' with ha hb
      exact ⟨ha, hb⟩
    subst h1; subst h2
    exact ⟨Or.inl rfl, rfl, rfl, fun rep hr => hr, Or.inl ⟨rfl, rfl, rfl⟩⟩
  | progress =>
    obtain ⟨h1, h2⟩ : (1 : Int) = r ∧ c = c2 := by
      simp only [processStep] at h
      injection h with h'
      injection h' with ha hb
      exact ⟨ha, hb⟩
    subst h1; subst h2
    exact ⟨Or.inr rfl, rfl, rfl, fun rep hr => hr, Or.inl ⟨rfl, rfl, rfl⟩⟩
  | deliver i =>
    cases hp : c.pending with
    | nil =>
      simp only [processStep, hp] at h
      injection h with h'
      injection h' with ha hb
      subst ha; subst hb
      exact ⟨Or.inr rfl, rfl, rfl, fun rep hr => hr, Or.inl ⟨rfl, rfl, by simp [hp]⟩⟩
    | cons p ps =>
      simp only [processStep, hp] at h
      injection h with h'
      injection h' with ha hb
      subst ha
      subst hb
      have hj : i % (p :: ps).length < (p :: ps).length :=
        Nat.mod_lt _ (by simp)
      obtain ⟨hcc, hff, _, _⟩ := async_callback_counts
        (P.outcomes ((p :: ps).getD (i % (p :: ps).length) 0))
        (mkCtx P ((p :: ps).getD (i % (p :: ps).length) 0))
        c.completed_requests c.failed_requests
      refine ⟨Or.inr rfl, rfl, rfl, fun rep hr => by simp [hr], Or.inr ⟨by simp, ?_, ?_⟩⟩
      · dsimp only
        rw [hcc, hff]
        by_cases hok : callbackOk
            (P.outcomes ((p :: ps).getD (i % (p :: ps).length) 0))
            (mkCtx P ((p :: ps).getD (i % (p :: ps).length) 0)).expected_bytes
            = true
        · rw [if_pos hok, if_pos hok]; omega
        · rw [if_neg hok, if_neg hok]; omega
      · dsimp only
        simp only [List.length_eraseIdx_of_lt hj]
        have hlen : 0 < (p :: ps).length := by simp
        omega

lemma loopInv_recompute (P : Params) (c1 c2 : Config) (hInv1 : LoopInv P c1)
    (hspec : c2.requests_sent = c1.requests_sent ∧
      ((c2.completed_requests = c1.completed_requests ∧
        c2.failed_requests = c1.failed_requests ∧ c2.pending = c1.pending) ∨
       (0 < c1.pending.length ∧
        c2.completed_requests + c2.failed_requests
          = c1.completed_requests + c1.failed_requests + 1 ∧
        c2.pending.length + 1 = c1.pending.length))) :
    LoopInv P { c2 with in_flight := c2.requests_sent -
        (c2.completed_requests + c2.failed_requests) } := by
  obtain ⟨s1, s2, s3, s4⟩ := hInv1
  obtain ⟨q1, q2⟩ := hspec
  rcases q2 with ⟨a1, a2, a3⟩ | ⟨a1, a2, a3⟩
  · have hl := congrArg List.length a3
    exact ⟨by dsimp only; omega, by dsimp only; omega, by dsimp only; omega,
      by dsimp only; omega⟩
  · exact ⟨by dsimp only; omega, by dsimp only; omega, by dsimp only; omega,
      by dsimp only; omega⟩

lemma runLoop_states_inv (P : Params) :
    ∀ (ss : Sched) (c : Config), LoopInv P c →
      ∀ c'' ∈ (runLoop P ss c).states, LoopInv P c'' := by
  intro ss
  induction ss with
  | nil =>
    intro c hInv c'' hmem
    by_cases hg : c.requests_sent < P.iterations ∨ 0 < c.in_flight
    · obtain ⟨hTr, hOk, hErr⟩ := admitLoop_inv P P.iterations c hInv
      rcases hA : admitLoop P P.iterations c with ⟨res, tr⟩
      rw [hA] at hTr
      rw [runLoop, if_pos hg, hA] at hmem
      cases res with
      | error ec =>
        rcases ec with ⟨e, cf⟩
        simp only at hmem
        exact hTr c'' hmem
      | ok c1 =>
        simp only at hmem
        exact hTr c'' hmem
    · rw [runLoop, if_neg hg] at hmem
      simp at hmem
  | cons e ss' ih =>
    intro c hInv c'' hmem
    by_cases hg : c.requests_sent < P.iterations ∨ 0 < c.in_flight
    · obtain ⟨hTr, hOk, hErr⟩ := admitLoop_inv P P.iterations c hInv
      rcases hA : admitLoop P P.iterations c with ⟨res, tr⟩
      rw [hA] at hTr hOk
      rw [runLoop, if_pos hg, hA] at hmem
      cases res with
      | error ec =>
        rcases ec with ⟨e0, cf⟩
        simp only at hmem
        exact hTr c'' hmem
      | ok c1 =>
        have hInv1 : LoopInv P c1 := hOk c1 rfl
        simp only at hmem
        cases hP : processStep P c1 e.1 with
        | error ec =>
          rcases ec with ⟨e0, cf⟩
          rw [hP] at hmem
          simp only at hmem
          exact hTr c'' hmem
        | ok rc =>
          rcases rc with ⟨r, c2⟩
          rw [hP] at hmem
          obtain ⟨q0, q1, q2, q3, q4⟩ := processStep_ok_spec P c1 e.1 r c2 hP
          have hInv3 := loopInv_recompute P c1 c2 hInv1 ⟨q1, q4⟩
          simp only at hmem
          by_cases hr : (0 : Int) < r
          · rw [if_pos hr] at hmem
            simp only at hmem
            rcases List.mem_append.mp hmem with h | h
            · exact hTr c'' h
            · rcases List.mem_cons.mp h with h | h
              · subst h; exact hInv3
              · exact ih _ hInv3 c'' h
          · rw [if_neg hr] at hmem
            by_cases hf : 0 < c2.requests_sent -
                (c2.completed_requests + c2.failed_requests)
            · rw [if_pos hf] at hmem
              cases hw : e.2 with
              | werror we =>
                rw [hw] at hmem
                simp only at hmem
                rcases List.mem_append.mp hmem with h | h
                · exact hTr c'' h
                · rcases List.mem_singleton.mp h with h
                  subst h; exact hInv3
              | ok =>
                rw [hw] at hmem
                simp only at hmem
                rcases List.mem_append.mp hmem with h | h
                · exact hTr c'' h
                · rcases List.mem_cons.mp h with h | h
                  · subst h; exact hInv3
                  · exact ih _ hInv3 c'' h
            · rw [if_neg hf] at hmem
              simp only at hmem
              rcases List.mem_append.mp hmem with h | h
              · exact hTr c'' h
              · rcases List.mem_cons.mp h with h | h
                · subst h; exact hInv3
                · exact ih _ hInv3 c'' h
    · rw [runLoop, if_neg hg] at hmem
      simp at hmem

lemma runLoop_records_wait (P : Params) :
    ∀ (ss : Sched) (c : Config), ∀ rec ∈ (runLoop P ss c).records,
      rec.waited = decide (rec.procRet = 0 ∧ 0 < rec.inFlightAfter) := by
  intro ss
  induction ss with
  | nil =>
    intro c rec hmem
    by_cases hg : c.requests_sent < P.iterations ∨ 0 < c.in_flight
    · rcases hA : admitLoop P P.iterations c with ⟨res, tr⟩
      rw [runLoop, if_pos hg, hA] at hmem
      cases res with
      | error ec =>
        rcases ec with ⟨e, cf⟩
        simp at hmem
      | ok c1 => simp at hmem
    · rw [runLoop, if_neg hg] at hmem
      simp at hmem
  | cons e ss' ih =>
    intro c rec hmem
    by_cases hg : c.requests_sent < P.iterations ∨ 0 < c.in_flight
    · rcases hA : admitLoop P P.iterations c with ⟨res, tr⟩
      rw [runLoop, if_pos hg, hA] at hmem
      cases res with
      | error ec =>
        rcases ec with ⟨e0, cf⟩
        simp at hmem
      | ok c1 =>
        simp only at hmem
        cases hP : processStep P c1 e.1 with
        | error ec =>
          rcases ec with ⟨e0, cf⟩
          rw [hP] at hmem
          simp at hmem
        | ok rc =>
          rcases rc with ⟨r, c2⟩
          rw [hP] at hmem
          obtain ⟨q0, q1, q2, q3, q4⟩ := processStep_ok_spec P c1 e.1 r c2 hP
          simp only at hmem
          by_cases hr : (0 : Int) < r
          · rw [if_pos hr] at hmem
            simp only at hmem
            rcases List.mem_cons.mp hmem with h | h
            · subst h
              simp
              omega
            · exact ih _ rec h
          · rw [if_neg hr] at hmem
            have hr0 : r = 0 := by rcases q0 with h | h <;> omega
            by_cases hf : 0 < c2.requests_sent -
                (c2.completed_requests + c2.failed_requests)
            · rw [if_pos hf] at hmem
              cases hw : e.2 with
              | werror we =>
                rw [hw] at hmem
                simp only at hmem
                rcases List.mem_singleton.mp hmem with h
                subst h
                simp [hr0, hf]
              | ok =>
                rw [hw] at hmem
                simp only at hmem
                rcases List.mem_cons.mp hmem with h | h
                · subst h
                  simp [hr0, hf]
                · exact ih _ rec h
            · rw [if_neg hf] at hmem
              simp only at hmem
              rcases List.mem_cons.mp hmem with h | h
              · subst h
                simp
                omega
              · exact ih _ rec h
    · rw [runLoop, if_neg hg] at hmem
      simp at hmem

lemma runLoop_master (P : Params) (hm : ∀ id, P.mallocOk id = true)
    (hs : ∀ id, P.submit id = Except.ok ()) (hc : 1 ≤ P.concurrent) :
    ∀ (ss : Sched) (c : Config),
      (∀ e ∈ ss, e.1.isDeliver = true ∧ e.2 = WaitResult.ok) →
      LoopInv P c →
      P.iterations ≤ c.completed_requests + c.failed_requests + ss.length →
      ∃ c', (runLoop P ss c).result = RunResult.finished c' ∧
        c'.completed_requests
          = c.completed_requests + (remainingIds P c).countP (okP P) ∧
        c'.failed_requests
          = c.failed_requests +
            ((remainingIds P c).length - (remainingIds P c).countP (okP P)) ∧
        (∀ rep ∈ c.reports, rep ∈ c'.reports) ∧
        (∀ id ∈ remainingIds P c,
           ∀ rep ∈ (async_callback (P.outcomes id) (mkCtx P id) 0 0).reports,
             rep ∈ c'.reports) := by
  intro ss
  induction ss with
  | nil =>
    intro c hss hInv hlen
    obtain ⟨s1, s2, s3, s4⟩ := hInv
    simp only [List.length_nil, Nat.add_zero] at hlen
    have hlen0 : c.pending.length = 0 := by omega
    have hsent : c.requests_sent = P.iterations := by omega
    have hpend : c.pending = [] := List.length_eq_zero.mp hlen0
    have hg : ¬(c.requests_sent < P.iterations ∨ 0 < c.in_flight) := by
      push_neg
      exact ⟨by omega, by omega⟩
    rw [runLoop, if_neg hg]
    refine ⟨c, rfl, ?_, ?_, fun rep h => h, ?_⟩
    · simp [remainingIds, hpend, hsent]
    · simp [remainingIds, hpend, hsent]
    · intro id hid
      simp [remainingIds, hpend, hsent] at hid
  | cons e ss' ih =>
    intro c hss hInv hlen
    obtain ⟨he1, he2⟩ := hss e (List.mem_cons_self e ss')
    by_cases hg : c.requests_sent < P.iterations ∨ 0 < c.in_flight
    · obtain ⟨k, c1, a1, a2, a3, a4, a5, a6, a7, a8, a9⟩ :=
        admitLoop_spec P hm hs P.iterations c
      rcases hA : admitLoop P P.iterations c with ⟨res, tr⟩
      rw [hA] at a1
      simp only at a1
      subst a1
      obtain ⟨s1, s2, s3, s4⟩ := hInv
      have hlen1 : c1.pending.length = c.pending.length + k := by
        rw [a6]; simp
      have hsk : c.requests_sent + k ≤ P.iterations := by
        rcases a8 with h | h
        · subst h; omega
        · omega
      have f1 : c1.completed_requests + c1.failed_requests + c1.pending.length
          = c1.requests_sent := by omega
      have f2 : c1.in_flight = c1.pending.length := by omega
      have f3 : c1.pending.length ≤ P.concurrent := by
        rcases a8 with h | h
        · omega
        · omega
      have f4 : c1.requests_sent ≤ P.iterations := by omega
      have hrem1 : remainingIds P c1 = remainingIds P c := by
        unfold remainingIds
        rw [a6, a2, List.append_assoc]
        congr 1
        rw [show c.requests_sent + k + 1 = c.requests_sent + 1 + k by omega]
        have hap := List.range'_append_1 (c.requests_sent + 1) k
          (P.iterations - (c.requests_sent + k))
        rw [hap]
        congr 1
        omega
      have hpne : 0 < c1.pending.length := by
        have hpost := a9 (by omega)
        rcases hpost with h | h
        · rcases hg with hg1 | hg1
          · omega
          · omega
        · omega
      cases hp1 : c1.pending with
      | nil => rw [hp1] at hpne; simp at hpne
      | cons p ps =>
      rcases e with ⟨pr, wr⟩
      cases pr with
      | perror e0 => simp [ProcResult.isDeliver] at he1
      | progress => simp [ProcResult.isDeliver] at he1
      | idle => simp [ProcResult.isDeliver] at he1
      | deliver i =>
      simp only at he2
      subst he2
      have hj : i % (p :: ps).length < (p :: ps).length :=
        Nat.mod_lt _ (by simp)
      have hstep : processStep P c1 (ProcResult.deliver i) = Except.ok (1,
          { c1 with
            completed_requests :=
              (async_callback (P.outcomes ((p :: ps).getD (i % (p :: ps).length) 0))
                (mkCtx P ((p :: ps).getD (i % (p :: ps).length) 0))
                c1.completed_requests c1.failed_requests).completed_requests,
            failed_requests :=
              (async_callback (P.outcomes ((p :: ps).getD (i % (p :: ps).length) 0))
                (mkCtx P ((p :: ps).getD (i % (p :: ps).length) 0))
                c1.completed_requests c1.failed_requests).failed_requests,
            pending := (p :: ps).eraseIdx (i % (p :: ps).length),
            reports := c1.reports ++
              (async_callback (P.outcomes ((p :: ps).getD (i % (p :: ps).length) 0))
                (mkCtx P ((p :: ps).getD (i % (p :: ps).length) 0))
                c1.completed_requests c1.failed_requests).reports }) := by
        simp only [processStep, hp1]
      obtain ⟨hcc, hff, _, _⟩ := async_callback_counts
        (P.outcomes ((p :: ps).getD (i % (p :: ps).length) 0))
        (mkCtx P ((p :: ps).getD (i % (p :: ps).length) 0))
        c1.completed_requests c1.failed_requests
      have hexp : (mkCtx P ((p :: ps).getD (i % (p :: ps).length) 0)).expected_bytes
          = P.num_bytes := rfl
      rw [hexp] at hcc hff
      have hcnt := countP_eraseIdx_getD (okP P) (p :: ps) (i % (p :: ps).length) hj
      have hlen2 : ((p :: ps).eraseIdx (i % (p :: ps).length)).length + 1
          = (p :: ps).length := by
        rw [List.length_eraseIdx_of_lt hj]
        have : 0 < (p :: ps).length := by simp
        omega
      have hokP : callbackOk
            (P.outcomes ((p :: ps).getD (i % (p :: ps).length) 0)) P.num_bytes
          = okP P ((p :: ps).getD (i % (p :: ps).length) 0) := rfl
      rw [hokP] at hcc hff
      have hInv1 : LoopInv P c1 := ⟨f1, f2, f3, f4⟩
      obtain ⟨q0, q1, q2, q3, q4⟩ := processStep_ok_spec P c1 (ProcResult.deliver i) 1 _ hstep
      have hInv3 := loopInv_recompute P c1 _ hInv1 ⟨q1, q4⟩
      have hsum : (async_callback (P.outcomes ((p :: ps).getD (i % (p :: ps).length) 0))
            (mkCtx P ((p :: ps).getD (i % (p :: ps).length) 0))
            c1.completed_requests c1.failed_requests).completed_requests
          + (async_callback (P.outcomes ((p :: ps).getD (i % (p :: ps).length) 0))
            (mkCtx P ((p :: ps).getD (i % (p :: ps).length) 0))
            c1.completed_requests c1.failed_requests).failed_requests
          = c1.completed_requests + c1.failed_requests + 1 := by
        rw [hcc, hff]
        by_cases hok : okP P ((p :: ps).getD (i % (p :: ps).length) 0) = true
        · rw [if_pos hok, if_pos hok]; omega
        · rw [if_neg hok, if_neg hok]; omega
      have hss' : ∀ e0 ∈ ss', e0.1.isDeliver = true ∧ e0.2 = WaitResult.ok :=
        fun e0 he0 => hss e0 (List.mem_cons_of_mem _ he0)
      have hmeas : P.iterations ≤
          (async_callback (P.outcomes ((p :: ps).getD (i % (p :: ps).length) 0))
            (mkCtx P ((p :: ps).getD (i % (p :: ps).length) 0))
            c1.completed_requests c1.failed_requests).completed_requests
          + (async_callback (P.outcomes ((p :: ps).getD (i % (p :: ps).length) 0))
            (mkCtx P ((p :: ps).getD (i % (p :: ps).length) 0))
            c1.completed_requests c1.failed_requests).failed_requests
          + ss'.length := by
        rw [hsum]
        simp only [List.length_cons] at hlen
        omega
      obtain ⟨c', g1, g2, g3, g4, g5⟩ := ih
        { requests_sent := c1.requests_sent,
          in_flight := c1.requests_sent -
            ((async_callback (P.outcomes ((p :: ps).getD (i % (p :: ps).length) 0))
              (mkCtx P ((p :: ps).getD (i % (p :: ps).length) 0))
              c1.completed_requests c1.failed_requests).completed_requests
            + (async_callback (P.outcomes ((p :: ps).getD (i % (p :: ps).length) 0))
              (mkCtx P ((p :: ps).getD (i % (p :: ps).length) 0))
              c1.completed_requests c1.failed_requests).failed_requests),
          completed_requests :=
            (async_callback (P.outcomes ((p :: ps).getD (i % (p :: ps).length) 0))
              (mkCtx P ((p :: ps).getD (i % (p :: ps).length) 0))
              c1.completed_requests c1.failed_requests).completed_requests,
          failed_requests :=
            (async_callback (P.outcomes ((p :: ps).getD (i % (p :: ps).length) 0))
              (mkCtx P ((p :: ps).getD (i % (p :: ps).length) 0))
              c1.completed_requests c1.failed_requests).failed_requests,
          pending := (p :: ps).eraseIdx (i % (p :: ps).length),
          reports := c1.reports ++
            (async_callback (P.outcomes ((p :: ps).getD (i % (p :: ps).length) 0))
              (mkCtx P ((p :: ps).getD (i % (p :: ps).length) 0))
              c1.completed_requests c1.failed_requests).reports }
        hss' hInv3 hmeas
      -- the remaining ids of the recursed-on state
      have hrem3 : remainingIds P
          { requests_sent := c1.requests_sent,
            in_flight := c1.requests_sent -
              ((async_callback (P.outcomes ((p :: ps).getD (i % (p :: ps).length) 0))
                (mkCtx P ((p :: ps).getD (i % (p :: ps).length) 0))
                c1.completed_requests c1.failed_requests).completed_requests
              + (async_callback (P.outcomes ((p :: ps).getD (i % (p :: ps).length) 0))
                (mkCtx P ((p :: ps).getD (i % (p :: ps).length) 0))
                c1.completed_requests c1.failed_requests).failed_requests),
            completed_requests :=
              (async_callback (P.outcomes ((p :: ps).getD (i % (p :: ps).length) 0))
                (mkCtx P ((p :: ps).getD (i % (p :: ps).length) 0))
                c1.completed_requests c1.failed_requests).completed_requests,
            failed_requests :=
              (async_callback (P.outcomes ((p :: ps).getD (i % (p :: ps).length) 0))
                (mkCtx P ((p :: ps).getD (i % (p :: ps).length) 0))
                c1.completed_requests c1.failed_requests).failed_requests,
            pending := (p :: ps).eraseIdx (i % (p :: ps).length),
            reports := c1.reports ++
              (async_callback (P.outcomes ((p :: ps).getD (i % (p :: ps).length) 0))
                (mkCtx P ((p :: ps).getD (i % (p :: ps).length) 0))
                c1.completed_requests c1.failed_requests).reports }
          = (p :: ps).eraseIdx (i % (p :: ps).length)
            ++ List.range' (c1.requests_sent + 1) (P.iterations - c1.requests_sent) := rfl
      rw [hrem3] at g2 g3 g5
      dsimp only at g2 g3
      have hKrem : (remainingIds P c).countP (okP P)
          = ((p :: ps).eraseIdx (i % (p :: ps).length)
              ++ List.range' (c1.requests_sent + 1)
                  (P.iterations - c1.requests_sent)).countP (okP P)
            + (if okP P ((p :: ps).getD (i % (p :: ps).length) 0) = true then 1 else 0) := by
        rw [← hrem1]
        unfold remainingIds
        rw [hp1, List.countP_append, List.countP_append]
        omega
      have hLrem : (remainingIds P c).length
          = ((p :: ps).eraseIdx (i % (p :: ps).length)
              ++ List.range' (c1.requests_sent + 1)
                  (P.iterations - c1.requests_sent)).length + 1 := by
        rw [← hrem1]
        unfold remainingIds
        rw [hp1]
        simp only [List.length_append]
        omega
      have hK3L3 : ((p :: ps).eraseIdx (i % (p :: ps).length)
              ++ List.range' (c1.requests_sent + 1)
                  (P.iterations - c1.requests_sent)).countP (okP P)
          ≤ ((p :: ps).eraseIdx (i % (p :: ps).length)
              ++ List.range' (c1.requests_sent + 1)
                  (P.iterations - c1.requests_sent)).length :=
        List.countP_le_length _
      -- now discharge the goal
      rw [runLoop, if_pos hg, hA]
      simp only
      rw [hstep]
      simp only
      rw [if_pos (by decide : (0 : Int) < 1)]
      refine ⟨c', g1, ?_, ?_, ?_, ?_⟩
      · rw [g2, hcc, hKrem]
        by_cases hok : okP P ((p :: ps).getD (i % (p :: ps).length) 0) = true
        · rw [if_pos hok, if_pos hok]; omega
        · rw [if_neg hok, if_neg hok]; omega
      · rw [g3, hff, hKrem, hLrem]
        by_cases hok : okP P ((p :: ps).getD (i % (p :: ps).length) 0) = true
        · rw [if_pos hok, if_pos hok]; omega
        · rw [if_neg hok, if_neg hok]; omega
      · intro rep hrep
        exact g4 rep (by
          dsimp only
          exact List.mem_append_left _ (a7 rep hrep))
      · intro id hid rep hrep
        have hid1 : id ∈ remainingIds P c1 := by rw [hrem1]; exact hid
        unfold remainingIds at hid1
        rw [hp1] at hid1
        rcases List.mem_append.mp hid1 with h | h
        · rcases mem_eraseIdx_or_getD (p :: ps) (i % (p :: ps).length) hj h with h2 | h2
          · exact g5 id (List.mem_append_left _ h2) rep hrep
          · subst h2
            refine g4 rep ?_
            dsimp only
            refine List.mem_append_right _ ?_
            rw [async_callback_reports_eq]
            exact hrep
        · exact g5 id (List.mem_append_right _ h) rep hrep
    · push_neg at hg
      obtain ⟨s1, s2, s3, s4⟩ := hInv
      have hsent : c.requests_sent = P.iterations := by omega
      have hpend : c.pending = [] := List.length_eq_zero.mp (by omega)
      have hg' : ¬(c.requests_sent < P.iterations ∨ 0 < c.in_flight) := by
        push_neg
        exact ⟨by omega, by omega⟩
      rw [runLoop, if_neg hg']
      refine ⟨c, rfl, ?_, ?_, fun rep h => h, ?_⟩
      · simp [remainingIds, hpend, hsent]
      · simp [remainingIds, hpend, hsent]
      · intro id hid
        simp [remainingIds, hpend, hsent] at hid

/-! ### Sequential-path lemmas -/

lemma seqLoop_all_ok (P : SeqParams) :
    ∀ (r i : Nat) (acc : List Report),
      (∀ j, i ≤ j → j < i + r → seqIterOk P j = true) →
      ∃ reps, seqLoop P r i acc = SeqResult.completed (i + r) reps := by
  intro r
  induction r with
  | zero => intro i acc h; exact ⟨acc, rfl⟩
  | succ r ih =>
    intro i acc h
    have hok := h i (le_refl i) (by omega)
    cases hIt : seqIteration P i with
    | error reps => simp [seqIterOk, hIt] at hok
    | ok reps =>
      obtain ⟨reps2, heq⟩ := ih (i + 1) (acc ++ reps)
        (fun j hj1 hj2 => h j (by omega) (by omega))
      refine ⟨reps2, ?_⟩
      simp only [seqLoop, hIt]
      rw [heq]
      have : i + 1 + r = i + (r + 1) := by omega
      rw [this]

lemma seqLoop_first_fail (P : SeqParams) :
    ∀ (r i k : Nat) (acc : List Report),
      i ≤ k → k < i + r →
      (∀ j, i ≤ j → j < k → seqIterOk P j = true) →
      seqIterOk P k = false →
      ∃ reps, seqLoop P r i acc = SeqResult.fatal k reps := by
  intro r
  induction r with
  | zero => intro i k acc h1 h2 _ _; exact absurd h2 (by omega)
  | succ r ih =>
    intro i k acc h1 h2 h3 h4
    by_cases hik : i = k
    · subst hik
      cases hIt : seqIteration P i with
      | error reps => exact ⟨acc ++ reps, by simp [seqLoop, hIt]⟩
      | ok reps => simp [seqIterOk, hIt] at h4
    · have hok := h3 i (le_refl i) (by omega)
      cases hIt : seqIteration P i with
      | error reps => simp [seqIterOk, hIt] at hok
      | ok reps =>
        obtain ⟨reps2, heq⟩ := ih (i + 1) k (acc ++ reps) (by omega) (by omega)
          (fun j hj1 hj2 => h3 j (by omega) hj2) h4
        exact ⟨reps2, by simp only [seqLoop, hIt]; exact heq⟩

lemma seqMain_all_ok (P : SeqParams)
    (h : ∀ j, j < P.iterations → seqIterOk P j = true) :
    ∃ reps, seqMain P = SeqResult.completed P.iterations reps := by
  obtain ⟨reps, heq⟩ := seqLoop_all_ok P P.iterations 0 []
    (fun j hj1 hj2 => h j (by omega))
  refine ⟨reps ++ (if P.log_to_stdout then
    [Report.completedIterations P.iterations] else []), ?_⟩
  rw [seqMain, heq]
  simp

lemma seqMain_first_fail (P : SeqParams) (k : Nat) (hk : k < P.iterations)
    (hbef : ∀ j, j < k → seqIterOk P j = true) (hf : seqIterOk P k = false) :
    ∃ reps, seqMain P = SeqResult.fatal k reps := by
  obtain ⟨reps, heq⟩ := seqLoop_first_fail P P.iterations 0 k [] (by omega) (by omega)
    (fun j hj1 hj2 => hbef j hj2) hf
  exact ⟨reps, by rw [seqMain, heq]⟩

/-- The inline validation of a sequential iteration accepts exactly when
the completion handler would classify the same outcome as a success. -/
lemma seqIterOk_eq_callbackOk (P : SeqParams) (i : Nat) :
    seqIterOk P i = callbackOk (outcomeOfSync (P.sync i)) P.num_bytes := by
  cases hS : P.sync i with
  | callError msg => simp [seqIterOk, seqIteration, outcomeOfSync, callbackOk, hS]
  | ok m =>
    rcases m with ⟨sr, ar⟩
    rcases sr with e | status
    · simp [seqIterOk, seqIteration, outcomeOfSync, callbackOk, hS]
    · rcases ar with e | octets
      · by_cases h0 : status = 0 <;>
          simp [seqIterOk, seqIteration, outcomeOfSync, callbackOk, hS, h0]
      · by_cases h0 : status = 0 <;> by_cases hl : octets.length = P.num_bytes <;>
          simp [seqIterOk, seqIteration, outcomeOfSync, callbackOk, hS, h0, hl]

/-! ### Remaining loop lemmas -/

/-- An error during the admission phase aborts the whole dispatch loop at
once, regardless of what the bus would have delivered. -/
lemma runLoop_admit_error (P : Params) (ss : Sched) (c : Config) (e : Nat)
    (cf : Config) (tr : List Config)
    (hg : c.requests_sent < P.iterations ∨ 0 < c.in_flight)
    (hA : admitLoop P P.iterations c = (Except.error (e, cf), tr)) :
    (runLoop P ss c).result = RunResult.fatal e cf := by
  rw [runLoop, if_pos hg, hA]

lemma countP_range'_allbutone (p : Nat → Bool) :
    ∀ (n s j : Nat), s ≤ j → j < s + n → p j = false →
      (∀ x, s ≤ x → x < s + n → x ≠ j → p x = true) →
      (List.range' s n).countP p = n - 1 := by
  intro n
  induction n with
  | zero => intro s j h1 h2 _ _; exact absurd h2 (by omega)
  | succ n ih =>
    intro s j h1 h2 hj hother
    rw [List.range'_succ, List.countP_cons]
    by_cases hsj : s = j
    · subst hsj
      rw [hj]
      have hrest : (List.range' (s + 1) n).countP p = n := by
        have hall : (List.range' (s + 1) n).countP p
            = (List.range' (s + 1) n).length :=
          List.countP_eq_length.mpr (fun a ha => by
            rw [List.mem_range'_1] at ha
            exact hother a (by omega) (by omega) (by omega))
        simpa using hall
      simp [hrest]
    · have hps : p s = true := hother s (le_refl s) (by omega) hsj
      rw [hps]
      have hrec := ih (s + 1) j (by omega) (by omega) hj
        (fun x hx1 hx2 hx3 => hother x (by omega) (by omega) hx3)
      rw [hrec]
      simp only [if_pos]
      omega

/-! ### Claim theorems -/

/-- C1: for all `total_requests ≥ 1` and `concurrency_limit ≥ 1`, if no
fatal error (connection failure, allocation failure or async submission
failure) occurs, the dispatch loop terminates with
`completed + failed = total_requests`.  The pipelined branch is driven by
any schedule in which the channel delivers one completion per round (the
channel-contract liveness assumption); the per-request outcomes are
arbitrary, so failed requests count as well.  In the sequential branch
every per-request failure is itself fatal (`goto cleanup`), so a run with
no fatal error is one in which every iteration validates, and then the
loop performs exactly `total_requests` successful iterations and zero
failures. -/
theorem claim_C1_termination_and_counts
    (P : Params) (Q : SeqParams) (ss : Sched)
    (hn : 1 ≤ P.iterations) (hc : 1 ≤ P.concurrent)
    (hm : ∀ id, P.mallocOk id = true)
    (hs : ∀ id, P.submit id = Except.ok ())
    (hss : ∀ e ∈ ss, e.1.isDeliver = true ∧ e.2 = WaitResult.ok)
    (hlen : P.iterations ≤ ss.length)
    (hq : ∀ j, j < Q.iterations → seqIterOk Q j = true) :
    (∃ c', (runLoop P ss initConfig).result = RunResult.finished c' ∧
       c'.completed_requests + c'.failed_requests = P.iterations) ∧
    (∃ reps, seqMain Q = SeqResult.completed Q.iterations reps) := by
  constructor
  · obtain ⟨c', g1, g2, g3, _, _⟩ := runLoop_master P hm hs hc ss initConfig hss
      ⟨rfl, rfl, Nat.zero_le _, Nat.zero_le _⟩ (by simpa [initConfig] using hlen)
    have hL : (remainingIds P initConfig).length = P.iterations := by
      simp [remainingIds, initConfig]
    have hK := @List.countP_le_length _ (okP P) (remainingIds P initConfig)
    refine ⟨c', g1, ?_⟩
    have hc0 : initConfig.completed_requests = 0 := rfl
    have hf0 : initConfig.failed_requests = 0 := rfl
    rw [hc0] at g2
    rw [hf0] at g3
    omega
  · exact seqMain_all_ok Q hq

theorem claim_C1_witness :
    (∃ c', (runLoop P1 ss1 initConfig).result = RunResult.finished c' ∧
       c'.completed_requests + c'.failed_requests = P1.iterations) ∧
    (∃ reps, seqMain Q1 = SeqResult.completed Q1.iterations reps) :=
  claim_C1_termination_and_counts P1 Q1 ss1 (by decide) (by decide)
    (fun _ => rfl) (fun _ => rfl) (by decide) (by decide) (by decide)

/-- C2: at every observable point of the pipelined dispatch loop — after
each individual submission and after each line-335 recomputation — the
in-flight count, both as the `in_flight` variable and as
`requests_sent - (completed + failed)`, never exceeds the concurrency
limit.  This holds for every environment and schedule, including ones
with failures. -/
theorem claim_C2_inflight_bounded (P : Params) (ss : Sched) :
    ∀ c'' ∈ (runLoop P ss initConfig).states,
      c''.requests_sent - (c''.completed_requests + c''.failed_requests)
        ≤ P.concurrent ∧
      c''.in_flight ≤ P.concurrent := by
  intro c'' hmem
  obtain ⟨i1, i2, i3, i4⟩ := runLoop_states_inv P ss initConfig
    ⟨rfl, rfl, Nat.zero_le _, Nat.zero_le _⟩ c'' hmem
  constructor <;> omega

theorem claim_C2_witness :
    (Config.mk 1 1 0 0 [1] [Report.sentRequest 1 2]).requests_sent -
        ((Config.mk 1 1 0 0 [1] [Report.sentRequest 1 2]).completed_requests +
         (Config.mk 1 1 0 0 [1] [Report.sentRequest 1 2]).failed_requests)
      ≤ P1.concurrent ∧
    (Config.mk 1 1 0 0 [1] [Report.sentRequest 1 2]).in_flight ≤ P1.concurrent :=
  claim_C2_inflight_bounded P1 ss1
    (Config.mk 1 1 0 0 [1] [Report.sentRequest 1 2]) (by decide)

/-- C3: every invocation of the completion handler frees the descriptor
and increments exactly one of the two counters by exactly one; a
transport error increments `failed` and reports the identity with the
error message; a non-zero status increments `failed` and reports identity
and status; a status-0 response of the expected length increments
`completed`. -/
theorem claim_C3_completion_handler (o : Outcome) (ctx : request_context_t)
    (cc ff : Nat) :
    (async_callback o ctx cc ff).ctxFreed = true ∧
    (((async_callback o ctx cc ff).completed_requests = cc + 1 ∧
      (async_callback o ctx cc ff).failed_requests = ff) ∨
     ((async_callback o ctx cc ff).completed_requests = cc ∧
      (async_callback o ctx cc ff).failed_requests = ff + 1)) ∧
    (∀ msg, o = Outcome.transportError msg →
      (async_callback o ctx cc ff).failed_requests = ff + 1 ∧
      Report.methodCallFailed ctx.request_id msg
        ∈ (async_callback o ctx cc ff).reports) ∧
    (∀ m status, o = Outcome.reply m → m.statusRead = Except.ok status →
      status ≠ 0 →
      (async_callback o ctx cc ff).failed_requests = ff + 1 ∧
      Report.badStatus ctx.request_id status
        ∈ (async_callback o ctx cc ff).reports) ∧
    (∀ m octets, o = Outcome.reply m → m.statusRead = Except.ok 0 →
      m.arrayRead = Except.ok octets → octets.length = ctx.expected_bytes →
      (async_callback o ctx cc ff).completed_requests = cc + 1 ∧
      (async_callback o ctx cc ff).failed_requests = ff) := by
  obtain ⟨hcc, hff, hfree, _⟩ := async_callback_counts o ctx cc ff
  refine ⟨hfree, ?_, ?_, ?_, ?_⟩
  · by_cases hok : callbackOk o ctx.expected_bytes = true
    · exact Or.inl ⟨by rw [hcc, if_pos hok], by rw [hff, if_pos hok]⟩
    · exact Or.inr ⟨by rw [hcc, if_neg hok], by rw [hff, if_neg hok]⟩
  · intro msg ho
    subst ho
    exact ⟨rfl, by simp [async_callback]⟩
  · intro m status ho hst hne
    subst ho
    rcases m with ⟨sr, ar⟩
    simp only at hst
    subst hst
    constructor
    · simp [async_callback, hne]
    · simp [async_callback, hne]
  · intro m octets ho hst har hl
    subst ho
    rcases m with ⟨sr, ar⟩
    simp only at hst har
    subst hst
    subst har
    constructor <;> simp [async_callback, hl]

theorem claim_C3_witness :
    (async_callback (Outcome.transportError "boom") ⟨3, 4, true, 5⟩ 1 2).failed_requests
      = 3 ∧
    Report.methodCallFailed 3 "boom"
      ∈ (async_callback (Outcome.transportError "boom") ⟨3, 4, true, 5⟩ 1 2).reports :=
  (claim_C3_completion_handler (Outcome.transportError "boom")
    ⟨3, 4, true, 5⟩ 1 2).2.2.1 "boom" rfl

/-- C4: a response whose payload length differs from the expected byte
count is classified as a failure even with status 0: in pipelined mode
the completion handler increments `failed` and reports the mismatch; in
sequential mode the iteration fails and any iteration failure aborts the
remaining loop (`goto cleanup`). -/
theorem claim_C4_size_mismatch :
    (∀ (ctx : request_context_t) (cc ff : Nat) (m : BusMessage)
        (octets : List Nat),
       m.statusRead = Except.ok 0 → m.arrayRead = Except.ok octets →
       octets.length ≠ ctx.expected_bytes →
       (async_callback (Outcome.reply m) ctx cc ff).failed_requests = ff + 1 ∧
       (async_callback (Outcome.reply m) ctx cc ff).completed_requests = cc ∧
       Report.sizeMismatch ctx.request_id octets.length ctx.expected_bytes
         ∈ (async_callback (Outcome.reply m) ctx cc ff).reports) ∧
    (∀ (Q : SeqParams) (i : Nat) (m : BusMessage) (octets : List Nat),
       Q.sync i = SyncOutcome.ok m → m.statusRead = Except.ok 0 →
       m.arrayRead = Except.ok octets → octets.length ≠ Q.num_bytes →
       ∃ reps, seqIteration Q i = Except.error reps ∧
         Report.seqSizeMismatch octets.length Q.num_bytes ∈ reps) ∧
    (∀ (Q : SeqParams) (r i : Nat) (acc reps : List Report),
       seqIteration Q i = Except.error reps →
       seqLoop Q (r + 1) i acc = SeqResult.fatal i (acc ++ reps)) := by
  refine ⟨?_, ?_, ?_⟩
  · intro ctx cc ff m octets hst har hne
    rcases m with ⟨sr, ar⟩
    simp only at hst har
    subst hst
    subst har
    refine ⟨?_, ?_, ?_⟩ <;> simp [async_callback, hne]
  · intro Q i m octets hS hst har hne
    rcases m with ⟨sr, ar⟩
    simp only at hst har
    subst hst
    subst har
    refine ⟨(if Q.log_to_stdout ∧ 1 < Q.iterations then
        [Report.iterationHeader (i + 1) Q.iterations] else [])
        ++ [Report.seqSizeMismatch octets.length Q.num_bytes], ?_, ?_⟩
    · simp [seqIteration, hS, hne]
    · simp
  · intro Q r i acc reps hIt
    simp [seqLoop, hIt]

theorem claim_C4_witness :
    (async_callback (Outcome.reply ⟨Except.ok 0, Except.ok [9]⟩)
        ⟨1, 2, true, 1⟩ 0 0).failed_requests = 1 ∧
    (async_callback (Outcome.reply ⟨Except.ok 0, Except.ok [9]⟩)
        ⟨1, 2, true, 1⟩ 0 0).completed_requests = 0 ∧
    Report.sizeMismatch 1 1 2
      ∈ (async_callback (Outcome.reply ⟨Except.ok 0, Except.ok [9]⟩)
          ⟨1, 2, true, 1⟩ 0 0).reports := by
  have h := claim_C4_size_mismatch.1 ⟨1, 2, true, 1⟩ 0 0
    ⟨Except.ok 0, Except.ok [9]⟩ [9] rfl rfl (by decide)
  simpa using h

/-- C5: if the admission phase hits a fatal error — the channel rejecting
`sd_bus_call_method_async` for the next request id, or its context
allocation failing — the dispatch loop aborts at once with that error, no
matter what the bus schedule would have delivered: the failing request is
not counted as submitted, no later request is submitted, and the
already-submitted requests stay outstanding (not rolled back); the run
exits with `EXIT_FAILURE`. -/
theorem claim_C5_submission_failure (P : Params) (ss : Sched) (c : Config)
    (e : Nat) (cf : Config) (tr : List Config)
    (hg : c.requests_sent < P.iterations ∨ 0 < c.in_flight)
    (hA : admitLoop P P.iterations c = (Except.error (e, cf), tr)) :
    (runLoop P ss c).result = RunResult.fatal e cf ∧
    exitCode (runLoop P ss c).result = 1 ∧
    c.requests_sent ≤ cf.requests_sent ∧
    cf.pending = c.pending ++
      List.range' (c.requests_sent + 1) (cf.requests_sent - c.requests_sent) ∧
    cf.completed_requests = c.completed_requests ∧
    cf.failed_requests = c.failed_requests ∧
    (P.mallocOk (cf.requests_sent + 1) = false ∨
      P.submit (cf.requests_sent + 1) = Except.error e) := by
  have hA1 : (admitLoop P P.iterations c).1 = Except.error (e, cf) := by rw [hA]
  obtain ⟨g1, g2, g3, g4, g5, g6⟩ := admitLoop_error_spec P P.iterations c e cf hA1
  have hres := runLoop_admit_error P ss c e cf tr hg hA
  exact ⟨hres, by rw [hres]; rfl, g1, g2, g4, g5, g6⟩

theorem claim_C5_witness :
    (runLoop P5 [] initConfig).result = RunResult.fatal 11
      (Config.mk 1 1 0 0 [1]
        [Report.sentRequest 1 3, Report.asyncCallFailed 2 11]) ∧
    exitCode (runLoop P5 [] initConfig).result = 1 ∧
    initConfig.requests_sent ≤
      (Config.mk 1 1 0 0 [1]
        [Report.sentRequest 1 3, Report.asyncCallFailed 2 11]).requests_sent ∧
    (Config.mk 1 1 0 0 [1]
      [Report.sentRequest 1 3, Report.asyncCallFailed 2 11]).pending
      = initConfig.pending ++ List.range' (initConfig.requests_sent + 1)
          ((Config.mk 1 1 0 0 [1]
            [Report.sentRequest 1 3,
             Report.asyncCallFailed 2 11]).requests_sent -
            initConfig.requests_sent) ∧
    (Config.mk 1 1 0 0 [1]
      [Report.sentRequest 1 3, Report.asyncCallFailed 2 11]).completed_requests
      = initConfig.completed_requests ∧
    (Config.mk 1 1 0 0 [1]
      [Report.sentRequest 1 3, Report.asyncCallFailed 2 11]).failed_requests
      = initConfig.failed_requests ∧
    (P5.mallocOk ((Config.mk 1 1 0 0 [1]
        [Report.sentRequest 1 3,
         Report.asyncCallFailed 2 11]).requests_sent + 1) = false ∨
      P5.submit ((Config.mk 1 1 0 0 [1]
        [Report.sentRequest 1 3,
         Report.asyncCallFailed 2 11]).requests_sent + 1) = Except.error 11) :=
  claim_C5_submission_failure P5 [] initConfig 11
    (Config.mk 1 1 0 0 [1] [Report.sentRequest 1 3, Report.asyncCallFailed 2 11])
    [Config.mk 1 1 0 0 [1] [Report.sentRequest 1 3]]
    (by decide) (by decide)

/-- C6: the sequential mode runs one blocking call per iteration with the
same request shape, accepts an iteration exactly when the completion
handler would classify the same outcome as a success, aborts immediately
at the first failing iteration (running no further iterations), and when
no iteration fails it performs exactly `total_requests` iterations. -/
theorem claim_C6_sequential_path :
    (∀ (Q : SeqParams) (i : Nat),
       seqIterOk Q i = callbackOk (outcomeOfSync (Q.sync i)) Q.num_bytes) ∧
    (∀ (Q : SeqParams) (k : Nat), k < Q.iterations →
       (∀ j, j < k → seqIterOk Q j = true) → seqIterOk Q k = false →
       ∃ reps, seqMain Q = SeqResult.fatal k reps) ∧
    (∀ (Q : SeqParams), (∀ j, j < Q.iterations → seqIterOk Q j = true) →
       ∃ reps, seqMain Q = SeqResult.completed Q.iterations reps) :=
  ⟨fun Q i => seqIterOk_eq_callbackOk Q i,
   fun Q k hk hb hf => seqMain_first_fail Q k hk hb hf,
   fun Q h => seqMain_all_ok Q h⟩

theorem claim_C6_witness :
    ∃ reps, seqMain Q6 = SeqResult.fatal 1 reps :=
  claim_C6_sequential_path.2.1 Q6 1 (by decide) (by decide) (by decide)

/-- C7: an iteration of the pipelined loop blocks in `sd_bus_wait`
exactly when its `sd_bus_process` call reported no events (returned 0)
and the recomputed in-flight count is positive; whenever events were
processed or nothing is in flight, the loop does not block. -/
theorem claim_C7_wait_discipline (P : Params) (ss : Sched) :
    ∀ rec ∈ (runLoop P ss initConfig).records,
      rec.waited = decide (rec.procRet = 0 ∧ 0 < rec.inFlightAfter) :=
  runLoop_records_wait P ss initConfig

theorem claim_C7_witness :
    (IterRecord.mk 0 1 true).waited
      = decide ((IterRecord.mk 0 1 true).procRet = 0 ∧
          0 < (IterRecord.mk 0 1 true).inFlightAfter) :=
  claim_C7_wait_discipline P1 ss2 (IterRecord.mk 0 1 true) (by decide)

/-- C8: on equivalent inputs — same `total_requests` and same
`bytes_per_request` — where no request fails, the pipelined mode
(concurrency limit > 1, with the channel delivering every completion) and
the sequential mode finish with the same `(completed, failed)` outcome:
`(total_requests, 0)`. -/
theorem claim_C8_mode_equivalence (P : Params) (Q : SeqParams) (ss : Sched)
    (hiter : Q.iterations = P.iterations) (hbytes : Q.num_bytes = P.num_bytes)
    (hc : 2 ≤ P.concurrent)
    (hm : ∀ id, P.mallocOk id = true) (hs : ∀ id, P.submit id = Except.ok ())
    (hss : ∀ e ∈ ss, e.1.isDeliver = true ∧ e.2 = WaitResult.ok)
    (hlen : P.iterations ≤ ss.length)
    (hallP : ∀ id, 1 ≤ id → id ≤ P.iterations → okP P id = true)
    (hallQ : ∀ j, j < Q.iterations → seqIterOk Q j = true) :
    ∃ c' reps, (runLoop P ss initConfig).result = RunResult.finished c' ∧
      seqMain Q = SeqResult.completed Q.iterations reps ∧
      c'.completed_requests = Q.iterations ∧ c'.failed_requests = 0 := by
  obtain ⟨c', g1, g2, g3, _, _⟩ := runLoop_master P hm hs (by omega) ss initConfig
    hss ⟨rfl, rfl, Nat.zero_le _, Nat.zero_le _⟩ (by simpa [initConfig] using hlen)
  obtain ⟨reps, hseq⟩ := seqMain_all_ok Q hallQ
  have hremdef : remainingIds P initConfig = List.range' 1 P.iterations := by
    simp [remainingIds, initConfig]
  have hcount : (remainingIds P initConfig).countP (okP P) = P.iterations := by
    rw [hremdef]
    have hall : (List.range' 1 P.iterations).countP (okP P)
        = (List.range' 1 P.iterations).length :=
      List.countP_eq_length.mpr (fun a ha => by
        rw [List.mem_range'_1] at ha
        exact hallP a (by omega) (by omega))
    simpa using hall
  have hLn : (remainingIds P initConfig).length = P.iterations := by
    rw [hremdef]; simp
  have hc0 : initConfig.completed_requests = 0 := rfl
  have hf0 : initConfig.failed_requests = 0 := rfl
  refine ⟨c', reps, g1, hseq, ?_, ?_⟩
  · rw [g2, hcount, hc0]
    omega
  · rw [g3, hcount, hLn, hf0]
    omega

theorem claim_C8_witness :
    ∃ c' reps, (runLoop P1 ss1 initConfig).result = RunResult.finished c' ∧
      seqMain Q8 = SeqResult.completed Q8.iterations reps ∧
      c'.completed_requests = Q8.iterations ∧ c'.failed_requests = 0 :=
  claim_C8_mode_equivalence P1 Q8 ss1 rfl rfl (by decide) (fun _ => rfl)
    (fun _ => rfl) (by decide) (by decide) (fun id h1 h2 => rfl) (by decide)

/-- C9 counterexample: a successful response (`status = 0`, correct
length) on a descriptor with `batch_size = 1` but `reporting_mode =
Quiet` reports nothing at all — `print_octets` returns early when logging
is disabled (source line 106) — refuting the claim that with
`batch_size = 1` the full payload is always reported. -/
theorem claim_C9_counterexample :
    (async_callback (Outcome.reply ⟨Except.ok 0, Except.ok [5, 6]⟩)
        ⟨1, 2, false, 1⟩ 0 0).completed_requests = 1 ∧
    ¬ (Report.generatedOctets 2 [5, 6]
        ∈ (async_callback (Outcome.reply ⟨Except.ok 0, Except.ok [5, 6]⟩)
            ⟨1, 2, false, 1⟩ 0 0).reports) ∧
    (async_callback (Outcome.reply ⟨Except.ok 0, Except.ok [5, 6]⟩)
        ⟨1, 2, false, 1⟩ 0 0).reports = [] := by
  decide

/-- C9 amended: on a successful response, if the descriptor's
`batch_size` is 1 the full payload is reported as a formatted byte
sequence only when `reporting_mode` is Verbose (nothing is reported in
Quiet mode); otherwise, only when `reporting_mode` is Verbose, the byte
count received is reported. -/
theorem claim_C9_success_reporting (ctx : request_context_t) (cc ff : Nat)
    (m : BusMessage) (octets : List Nat)
    (h0 : m.statusRead = Except.ok 0) (ha : m.arrayRead = Except.ok octets)
    (hl : octets.length = ctx.expected_bytes) :
    (ctx.total_iterations = 1 → ctx.log_to_stdout = true →
      (async_callback (Outcome.reply m) ctx cc ff).reports
        = [Report.generatedOctets octets.length octets]) ∧
    (ctx.total_iterations = 1 → ctx.log_to_stdout = false →
      (async_callback (Outcome.reply m) ctx cc ff).reports = []) ∧
    (ctx.total_iterations ≠ 1 → ctx.log_to_stdout = true →
      (async_callback (Outcome.reply m) ctx cc ff).reports
        = [Report.receivedBytes ctx.request_id octets.length]) ∧
    (ctx.total_iterations ≠ 1 → ctx.log_to_stdout = false →
      (async_callback (Outcome.reply m) ctx cc ff).reports = []) ∧
    (async_callback (Outcome.reply m) ctx cc ff).completed_requests = cc + 1 := by
  rcases m with ⟨sr, ar⟩
  simp only at h0 ha
  subst h0
  subst ha
  refine ⟨?_, ?_, ?_, ?_, ?_⟩
  · intro h1 h2; simp [async_callback, print_octets, hl, h1, h2]
  · intro h1 h2; simp [async_callback, print_octets, hl, h1, h2]
  · intro h1 h2; simp [async_callback, print_octets, hl, h1, h2]
  · intro h1 h2; simp [async_callback, print_octets, hl, h1, h2]
  · simp [async_callback, hl]

theorem claim_C9_witness :
    (async_callback (Outcome.reply ⟨Except.ok 0, Except.ok [5, 6]⟩)
        ⟨1, 2, true, 1⟩ 0 0).reports = [Report.generatedOctets 2 [5, 6]] := by
  have h := (claim_C9_success_reporting ⟨1, 2, true, 1⟩ 0 0
    ⟨Except.ok 0, Except.ok [5, 6]⟩ [5, 6] rfl rfl (by decide)).1 rfl rfl
  simpa using h

/-- C10: in pipelined mode, a reply whose status field or payload array
cannot be parsed is a per-request failure: `failed` is incremented, an
error naming the request identity is reported, and the loop goes on to
finish every other request instead of aborting — the run ends with
`completed = total_requests - 1` and `failed = 1`. -/
theorem claim_C10_parse_failure (P : Params) (ss : Sched) (j : Nat)
    (hc : 1 ≤ P.concurrent)
    (hm : ∀ id, P.mallocOk id = true) (hs : ∀ id, P.submit id = Except.ok ())
    (hss : ∀ e ∈ ss, e.1.isDeliver = true ∧ e.2 = WaitResult.ok)
    (hlen : P.iterations ≤ ss.length)
    (hj1 : 1 ≤ j) (hj2 : j ≤ P.iterations)
    (hfail : callbackParseFail (P.outcomes j) = true)
    (hothers : ∀ id, 1 ≤ id → id ≤ P.iterations → id ≠ j → okP P id = true) :
    ∃ c', (runLoop P ss initConfig).result = RunResult.finished c' ∧
      c'.completed_requests = P.iterations - 1 ∧
      c'.failed_requests = 1 ∧
      (∃ e, Report.parseReplyFailed j e ∈ c'.reports ∨
            Report.readArrayFailed j e ∈ c'.reports) := by
  obtain ⟨c', g1, g2, g3, g4, g5⟩ := runLoop_master P hm hs hc ss initConfig hss
    ⟨rfl, rfl, Nat.zero_le _, Nat.zero_le _⟩ (by simpa [initConfig] using hlen)
  have hremdef : remainingIds P initConfig = List.range' 1 P.iterations := by
    simp [remainingIds, initConfig]
  have hokj : okP P j = false :=
    callbackParseFail_not_ok (P.outcomes j) P.num_bytes hfail
  have hcount : (remainingIds P initConfig).countP (okP P) = P.iterations - 1 := by
    rw [hremdef]
    exact countP_range'_allbutone (okP P) P.iterations 1 j hj1 (by omega) hokj
      (fun x hx1 hx2 hx3 => hothers x hx1 (by omega) hx3)
  have hLn : (remainingIds P initConfig).length = P.iterations := by
    rw [hremdef]; simp
  have hc0 : initConfig.completed_requests = 0 := rfl
  have hf0 : initConfig.failed_requests = 0 := rfl
  refine ⟨c', g1, ?_, ?_, ?_⟩
  · rw [g2, hcount, hc0]
    omega
  · rw [g3, hcount, hLn, hf0]
    omega
  · have hjmem : j ∈ remainingIds P initConfig := by
      rw [hremdef, List.mem_range'_1]
      omega
    have hrep := g5 j hjmem
    rcases ho : P.outcomes j with msg | m
    · rw [ho] at hfail
      simp [callbackParseFail] at hfail
    · rcases m with ⟨sr, ar⟩
      rw [ho] at hfail hrep
      rcases sr with e | status
      · refine ⟨e, Or.inl ?_⟩
        apply hrep
        simp [async_callback, mkCtx]
      · by_cases hst : status = 0
        · subst hst
          rcases ar with e | octets
          · refine ⟨e, Or.inr ?_⟩
            apply hrep
            simp [async_callback, mkCtx]
          · simp [callbackParseFail] at hfail
        · simp [callbackParseFail, hst] at hfail

theorem claim_C10_witness :
    ∃ c', (runLoop P10 ss1 initConfig).result = RunResult.finished c' ∧
      c'.completed_requests = P10.iterations - 1 ∧
      c'.failed_requests = 1 ∧
      (∃ e, Report.parseReplyFailed 1 e ∈ c'.reports ∨
            Report.readArrayFailed 1 e ∈ c'.reports) :=
  claim_C10_parse_failure P10 ss1 1 (by decide) (fun _ => rfl) (fun _ => rfl)
    (by decide) (by decide) (by decide) (by decide) (by decide)
    (by
      intro id h1 h2 h3
      have h2' : id ≤ 2 := h2
      interval_cases id
      · exact absurd rfl h3
      · decide)

end SdBusClient
